import Mathlib

/-!
playlists-api: the GET / handler of app.go.

A shallow embedding of `kubernetes/servicemesh/applications/playlists-api/app.go`.

The handler talks to four collaborators that are libraries, not code of the
repository: the redis client, `net/http`, `encoding/json` and the opentracing
tracer.  Their answers are the fields of `Env`; every call the handler makes to
them is recorded, in program order, in a list of `Event`s.  A Go panic is the
result `none`.
-/

namespace PlaylistsApi

/-! ## Data model (app.go:180-193) -/

/-- Go struct `videos` (app.go:186-193). -/
structure videos where
  Id : String
  Title : String
  Description : String
  Imageurl : String
  Url : String
  deriving DecidableEq, Repr

/-- Go struct `playlist` (app.go:180-184). -/
structure playlist where
  Id : String
  Name : String
  Videos : List videos
  deriving DecidableEq, Repr

/-- A Go value of type `[]playlist`: the nil slice, or a non-nil slice with its elements.
`json.Unmarshal` leaves the nil slice for the payload `null`; `json.Marshal` writes the
nil slice as `null` and a non-nil slice, also an empty one, as an array. -/
inductive PlaylistSlice where
  | nil
  | of (elems : List playlist)
  deriving DecidableEq, Repr

/-- The elements a `range` loop over the slice visits: none for the nil slice. -/
def PlaylistSlice.elems : PlaylistSlice → List playlist
  | .nil => []
  | .of elems => elems

/-- The slice after its elements were assigned in place (`playlists[pi].Videos = vs`):
the nil slice has no element and stays nil. -/
def PlaylistSlice.assign : PlaylistSlice → List playlist → PlaylistSlice
  | .nil, _ => .nil
  | .of _, elems => .of elems

/-- The header map behind `writer.Header()`: a key has a list of values or is absent. -/
def Header : Type := String → Option (List String)

/-- Go `Header.Set(key, value)`: the key now holds exactly `[value]`.  The four keys
app.go passes are already in canonical MIME form, so canonicalisation is the identity. -/
def headerSet (h : Header) (key value : String) : Header :=
  fun k => if k = key then some [value] else h k

/-- An outbound request as built by `http.NewRequest` and `Tracer.Inject`. -/
structure Request where
  Method : String
  URL : String
  /-- The span whose context `Inject` wrote into the request headers. -/
  Injected : Option Nat
  deriving DecidableEq, Repr

/-- What `http.DefaultClient.Do(req)` followed by `ioutil.ReadAll(videoResp.Body)` gives. -/
inductive Response where
  /-- `Do` returned `err != nil`. -/
  | transportError (err : String)
  /-- `Do` returned a response; `body` is `none` when `ReadAll` returns an error. -/
  | response (body : Option String)
  deriving DecidableEq, Repr

/-- The collaborators of one request. -/
structure Env where
  /-- `os.Getenv("ENVIRONMENT")` (app.go:26). -/
  environment : String
  /-- `rdb.Get(ctx, key).Result()` (app.go:168): an error or the stored string. -/
  rdbGet : String → Except String String
  /-- `json.Unmarshal` into a fresh `[]playlist{}` (app.go:85-86): `none` is `err != nil`,
  otherwise the value `playlists` holds afterwards. -/
  unmarshalPlaylists : String → Option PlaylistSlice
  /-- `json.Unmarshal` into a fresh `videos{}` (app.go:99,129); `none` is `err != nil`. -/
  unmarshalVideo : String → Option videos
  /-- Whether `http.NewRequest("GET", url, nil)` returns `err == nil`, i.e. whether the
  URL parses (app.go:101-104). -/
  validURL : String → Bool
  /-- The answer of the downstream service to the request sent as the `n`-th call
  (counting from 0) of this handler run (app.go:112,123). -/
  Do : Nat → Request → Response
  /-- How `encoding/json` writes a Go string as a JSON string literal. -/
  jsonString : String → String

/-- Calls made to the collaborators, in program order.  Spans are numbered in the order
they are started; `pi`, `vi` are the loop indices of app.go:92,95. -/
inductive Event where
  | startSpan (span : Nat) (operation : String) (parent : Option Nat)
  | setTagError (span : Nat)
  | finish (span : Nat)
  | println (msg : String)
  | rdbGet (key : String)
  | newRequest (pi vi : Nat) (method url : String)
  | clientDo (pi vi : Nat) (call : Nat) (req : Request)
  | bodyClose (call : Nat)
  deriving DecidableEq, Repr

/-! ## cors (app.go:199-206) -/

/-- Go `cors`: four `Header().Set` calls when the environment is DEBUG, nothing otherwise. -/
def cors (environment : String) (h : Header) : Header :=
  if environment = "DEBUG" then
    headerSet
      (headerSet
        (headerSet
          (headerSet h "Access-Control-Allow-Methods" "POST, GET, OPTIONS, PUT, DELETE")
          "Access-Control-Allow-Headers"
          "Content-Type, Content-Length, Accept-Encoding, X-CSRF-Token, Authorization, accept, origin, Cache-Control, X-Requested-With, X-MY-API-Version")
        "Access-Control-Allow-Credentials" "true")
      "Access-Control-Allow-Origin" "*"
  else h

/-! ## getPlaylists (app.go:164-178) -/

/-- Result of `getPlaylists`: the calls it made and the string it returned. -/
structure GetOut where
  events : List Event
  response : String

/-- Go `getPlaylists`.  `parent` is the span held by `ctx`, `span` the number of the
"redis-get" span it starts; `defer span.Finish()` runs as the function returns. -/
def getPlaylists (env : Env) (parent span : Nat) : GetOut :=
  match env.rdbGet "playlists" with
  | .error err =>
    { events := [.startSpan span "redis-get" (some parent), .rdbGet "playlists",
                 .println err, .println "error occured retrieving playlists from Redis",
                 .setTagError span, .finish span],
      response := "[]" }
  | .ok playlistData =>
    { events := [.startSpan span "redis-get" (some parent), .rdbGet "playlists",
                 .finish span],
      response := playlistData }

/-! ## The enrichment loop (app.go:92-140) -/

/-- State after a loop: calls made, counters, registered defers, and the value built
(`none` when the loop panicked). -/
structure LoopOut (α : Type) where
  events : List Event
  /-- Number of spans started so far in the request. -/
  spans : Nat
  /-- Number of `Do` calls made so far in the request. -/
  calls : Nat
  /-- Deferred calls registered by the loop, oldest first. -/
  deferred : List Event
  result : Option α

/-- The request of app.go:101-110 for a video reference. -/
def videoRequest (span : Nat) (ref : videos) : Request :=
  { Method := "GET", URL := "http://videos-api:10010/" ++ ref.Id, Injected := some span }

/-- The inner loop `for vi := range playlists[pi].Videos` (app.go:95-137), run on the
references from index `vi` on with the accumulator `vs`.  `span` is the root span. -/
def videoLoop (env : Env) (span pi : Nat) :
    List videos → Nat → Nat → Nat → List videos → LoopOut (List videos)
  | [], _, spans, calls, vs =>
    { events := [], spans := spans, calls := calls, deferred := [], result := some vs }
  | ref :: rest, vi, spans, calls, vs =>
    let videoSpan := spans
    let url := "http://videos-api:10010/" ++ ref.Id
    let started : List Event :=
      [.startSpan videoSpan "videos-api GET" (some span), .newRequest pi vi "GET" url]
    if env.validURL url then
      let req : Request := { Method := "GET", URL := url, Injected := some span }
      match env.Do calls req with
      | .transportError err =>
        -- fmt.Println(err); videoSpan.SetTag("error", true); break
        { events := started ++ [.clientDo pi vi calls req, .println err, .setTagError videoSpan],
          spans := spans + 1, calls := calls + 1, deferred := [], result := some vs }
      | .response none =>
        -- defer Body.Close(); videoSpan.Finish(); ReadAll fails: panic(err)
        { events := started ++ [.clientDo pi vi calls req, .finish videoSpan],
          spans := spans + 1, calls := calls + 1, deferred := [.bodyClose calls],
          result := none }
      | .response (some video) =>
        match env.unmarshalVideo video with
        | none =>
          -- json.Unmarshal fails: panic(err)
          { events := started ++ [.clientDo pi vi calls req, .finish videoSpan],
            spans := spans + 1, calls := calls + 1, deferred := [.bodyClose calls],
            result := none }
        | some v =>
          let next := videoLoop env span pi rest (vi + 1) (spans + 1) (calls + 1) (vs ++ [v])
          { next with
            events := started ++ [.clientDo pi vi calls req, .finish videoSpan] ++ next.events,
            deferred := .bodyClose calls :: next.deferred }
    else
      -- http.NewRequest fails: panic(err)
      { events := started, spans := spans + 1, calls := calls, deferred := [], result := none }

/-- The outer loop `for pi := range playlists` (app.go:92-140), run on the playlists
from index `pi` on; each playlist gets `Videos = vs`. -/
def playlistLoop (env : Env) (span : Nat) :
    List playlist → Nat → Nat → Nat → LoopOut (List playlist)
  | [], _, spans, calls =>
    { events := [], spans := spans, calls := calls, deferred := [], result := some [] }
  | p :: rest, pi, spans, calls =>
    let inner := videoLoop env span pi p.Videos 0 spans calls []
    match inner.result with
    | none =>
      { events := inner.events, spans := inner.spans, calls := inner.calls,
        deferred := inner.deferred, result := none }
    | some vs =>
      let next := playlistLoop env span rest (pi + 1) inner.spans inner.calls
      { events := inner.events ++ next.events, spans := next.spans, calls := next.calls,
        deferred := inner.deferred ++ next.deferred,
        result := next.result.map (fun done => { p with Videos := vs } :: done) }

/-! ## json.Marshal of the enriched playlists (app.go:142) -/

/-- A JSON array of already encoded elements. -/
def marshalArray (elems : List String) : String :=
  "[" ++ ",".intercalate elems ++ "]"

/-- Encoding of a `videos` value: the fields in declaration order under their json tags. -/
def marshalVideo (q : String → String) (v : videos) : String :=
  "\x7b\"id\":" ++ q v.Id ++ ",\"title\":" ++ q v.Title ++ ",\"description\":" ++ q v.Description
    ++ ",\"imageurl\":" ++ q v.Imageurl ++ ",\"url\":" ++ q v.Url ++ "\x7d"

/-- Encoding of a `playlist` value.  `Videos` is never a nil slice here (it is the
`[]videos{}` of app.go:94 with appends), so it is written as an array. -/
def marshalPlaylist (q : String → String) (p : playlist) : String :=
  "\x7b\"id\":" ++ q p.Id ++ ",\"name\":" ++ q p.Name ++ ",\"videos\":"
    ++ marshalArray (p.Videos.map (marshalVideo q)) ++ "\x7d"

/-- Go `json.Marshal(playlists)`: `null` for the nil slice, an array otherwise.  The value
holds only strings and slices of structs, for which Marshal has no error case, so the
panic of app.go:143-145 cannot happen. -/
def Marshal (q : String → String) : PlaylistSlice → String
  | .nil => "null"
  | .of elems => marshalArray (elems.map (marshalPlaylist q))

/-! ## The GET / handler (app.go:70-152) -/

/-- What one run of the handler did. -/
structure HandlerOut where
  /-- All calls to the collaborators, the deferred ones included, in program order. -/
  events : List Event
  /-- The header map of the response writer after the run. -/
  header : Header
  /-- The bytes written to the response writer. -/
  body : String
  /-- The enriched playlists handed to `json.Marshal`; `none` when the handler panicked. -/
  result : Option PlaylistSlice

/-- The deferred calls run when the handler returns or panics, last registered first;
`defer span.Finish()` of the root span was registered before all others. -/
def runDeferred (span : Nat) (deferred : List Event) : List Event :=
  deferred.reverse ++ [.finish span]

/-- The handler registered with `router.GET("/", ...)`, on a response writer whose
header map is `h` and to which nothing has been written. -/
def handler (env : Env) (h : Header) : HandlerOut :=
  let span := 0
  let w := cors env.environment h
  let got := getPlaylists env span 1
  let before : List Event := .startSpan span "/ GET" none :: got.events
  match env.unmarshalPlaylists got.response with
  | none =>
    { events := before ++ runDeferred span [], header := w, body := "", result := none }
  | some playlists =>
    let loop := playlistLoop env span playlists.elems 0 2 0
    match loop.result with
    | none =>
      { events := before ++ loop.events ++ runDeferred span loop.deferred,
        header := w, body := "", result := none }
    | some enriched =>
      { events := before ++ loop.events ++ runDeferred span loop.deferred,
        header := w, body := Marshal env.jsonString (playlists.assign enriched),
        result := some (playlists.assign enriched) }

/-! ## Vocabulary of the specification -/

/-- Whether an answer is a transport failure (`err != nil` at app.go:114). -/
def isTransportError : Response → Bool
  | .transportError _ => true
  | .response _ => false

/-- The Video record an answer decodes to (app.go:123-133), if it does. -/
def decoded (env : Env) : Response → Option videos
  | .transportError _ => none
  | .response none => none
  | .response (some body) => env.unmarshalVideo body

/-- An answer that does not make the decoding steps fail: a transport failure (there is
no response to decode) or a response that decodes. -/
def decodable (env : Env) (r : Response) : Bool :=
  isTransportError r || (decoded env r).isSome

/-- On a downstream call: the response received decodes.  True of every other event. -/
def responseDecodes (env : Env) : Event → Bool
  | .clientDo _ _ call req => decodable env (env.Do call req)
  | _ => true

/-- On a request construction: `http.NewRequest` succeeds.  True of every other event. -/
def requestBuilt (env : Env) : Event → Bool
  | .newRequest _ _ _ url => env.validURL url
  | _ => true

/-- Downstream calls among the events. -/
def isClientDo : Event → Bool
  | .clientDo _ _ _ _ => true
  | _ => false

/-- The reference index a downstream call is made for. -/
def requestedIndex : Event → Option Nat
  | .clientDo _ vi _ _ => some vi
  | _ => none

/-- The answers the references of a playlist get when they are requested one after the
other, the first as call number `calls`. -/
def answers (env : Env) (span : Nat) : Nat → List videos → List Response
  | _, [] => []
  | calls, ref :: rest =>
    env.Do calls (videoRequest span ref) :: answers env span (calls + 1) rest

/-- The answers that come before the first transport failure. -/
def served (env : Env) (span calls : Nat) (refs : List videos) : List Response :=
  (answers env span calls refs).takeWhile (fun a => !isTransportError a)

/-- How many references are reached: those served and the first failing one, if any. -/
def requestCount (env : Env) (span calls : Nat) (refs : List videos) : Nat :=
  min refs.length ((served env span calls refs).length + 1)

/-- The records decoded from the answers before the first transport failure. -/
def specVideos (env : Env) (span calls : Nat) (refs : List videos) : List videos :=
  (served env span calls refs).filterMap (decoded env)

/-- One downstream call per reference, in reference order, numbered from `vi` and
`calls` on. -/
def requestsFor (span pi : Nat) : List videos → Nat → Nat → List Event
  | [], _, _ => []
  | ref :: rest, vi, calls =>
    .clientDo pi vi calls (videoRequest span ref) :: requestsFor span pi rest (vi + 1) (calls + 1)

/-- The call number with which the requests of the playlist at index `j` start, when the
requests of the first playlist start with call number `calls`. -/
def firstCall (env : Env) (span : Nat) : Nat → List playlist → Nat → Nat
  | calls, [], _ => calls
  | calls, _ :: _, 0 => calls
  | calls, p :: rest, j + 1 =>
    firstCall env span (calls + requestCount env span calls p.Videos) rest j

/-- The playlists with each `Videos` replaced by the records of `specVideos`. -/
def specEnrich (env : Env) (span : Nat) : Nat → List playlist → List playlist
  | _, [] => []
  | calls, p :: rest =>
    { p with Videos := specVideos env span calls p.Videos }
      :: specEnrich env span (calls + requestCount env span calls p.Videos) rest

/-! ## Sample collaborators -/

/-- The record the sample video service keeps for an id. -/
def sampleVideo (id : String) : videos :=
  { Id := id, Title := "title of " ++ id, Description := "about " ++ id,
    Imageurl := "/img/" ++ id, Url := "/watch/" ++ id }

/-- The body the sample video service sends for an id. -/
def sampleBody (id : String) : String := "video " ++ id

/-- A sample environment: the store answers `store`; `json.Unmarshal` knows the payloads
listed in `stored`, the empty array and `null`; the video service knows `v1`, `v2`, `v3`, is
unreachable for the ids in `down`, and sends a body that is not a video for the ids in
`garbled`; a URL whose path is `%` does not parse. -/
def sampleEnv (store : Except String String) (stored : List (String × List playlist))
    (down garbled : List String) : Env where
  environment := "DEBUG"
  rdbGet := fun key => if key = "playlists" then store else .error "redis: nil"
  unmarshalPlaylists := fun s =>
    if s = "[]" then some (.of [])
    else if s = "null" then some .nil
    else (stored.lookup s).map .of
  unmarshalVideo := fun b =>
    (["v1", "v2", "v3"].find? (fun id => sampleBody id = b)).map sampleVideo
  validURL := fun url => url != "http://videos-api:10010/%"
  Do := fun _ req =>
    if req.URL ∈ down.map (fun id => "http://videos-api:10010/" ++ id) then
      .transportError "connection refused"
    else if req.URL ∈ garbled.map (fun id => "http://videos-api:10010/" ++ id) then
      .response (some "<html>")
    else
      match ["v1", "v2", "v3"].find? (fun id => "http://videos-api:10010/" ++ id = req.URL) with
      | some id => .response (some (sampleBody id))
      | none => .response (some "not found")
  jsonString := fun s => "\"" ++ s ++ "\""

/-- A video reference as stored in a playlist: only the id is set. -/
def ref (id : String) : videos :=
  { Id := id, Title := "", Description := "", Imageurl := "", Url := "" }

/-- A header map holding one header. -/
def sampleHeader : Header :=
  fun k => if k = "Content-Type" then some ["text/plain"] else none

/-- The store payload of the scenario in spec §8: one playlist with two references. -/
def favoritesJson : String :=
  "[\x7b\"id\":\"p1\",\"name\":\"Favorites\",\"videos\":[\x7b\"id\":\"v1\"\x7d,\x7b\"id\":\"v2\"\x7d]\x7d]"

/-- What `favoritesJson` decodes to. -/
def favorites : List playlist :=
  [{ Id := "p1", Name := "Favorites", Videos := [ref "v1", ref "v2"] }]

/-- The scenario of spec §8: the store holds `favoritesJson`, the video service answers
for `v1` and is unreachable for `v2`. -/
def favoritesEnv : Env :=
  sampleEnv (.ok favoritesJson) [(favoritesJson, favorites)] ["v2"] []

/-- A playlist with three references. -/
def threeRefs : List videos := [ref "v1", ref "v2", ref "v3"]

/-- A store payload that is no JSON array. -/
def brokenStoreEnv : Env := sampleEnv (.ok "oops") [] [] []

/-- A store that holds the JSON value `null`. -/
def nullStoreEnv : Env := sampleEnv (.ok "null") [] [] []

/-- A store payload with a reference whose id gives a URL that does not parse. -/
def percentJson : String :=
  "[\x7b\"id\":\"p1\",\"name\":\"Favorites\",\"videos\":[\x7b\"id\":\"%\"\x7d]\x7d]"

/-- An environment whose store holds `percentJson`. -/
def percentEnv : Env :=
  sampleEnv (.ok percentJson)
    [(percentJson, [{ Id := "p1", Name := "Favorites", Videos := [ref "%"] }])] [] []

/-- A store payload with one playlist of three references. -/
def threeJson : String :=
  "[\x7b\"id\":\"p1\",\"name\":\"Favorites\",\"videos\":[\x7b\"id\":\"v1\"\x7d,\x7b\"id\":\"v2\"\x7d,\x7b\"id\":\"v3\"\x7d]\x7d]"

/-- The store holds `threeJson`; the video service is unreachable for the ids in `down`
and garbles its answer for the ids in `garbled`. -/
def threeEnv (down garbled : List String) : Env :=
  sampleEnv (.ok threeJson)
    [(threeJson, [{ Id := "p1", Name := "Favorites", Videos := threeRefs }])] down garbled

/-- Two playlists: `A` with references v1, v2 and `B` with references v3, v1. -/
def twoPlaylists : List playlist :=
  [{ Id := "pA", Name := "A", Videos := [ref "v1", ref "v2"] },
   { Id := "pB", Name := "B", Videos := [ref "v3", ref "v1"] }]

/-! ## Unfolding the loops -/

theorem videoLoop_nil (env : Env) (span pi vi spans calls : Nat) (vs : List videos) :
    videoLoop env span pi [] vi spans calls vs =
      { events := [], spans := spans, calls := calls, deferred := [], result := some vs } := by
  simp [videoLoop]

theorem videoLoop_invalid (env : Env) (span pi : Nat) (ref : videos) (rest : List videos)
    (vi spans calls : Nat) (vs : List videos)
    (hurl : env.validURL ("http://videos-api:10010/" ++ ref.Id) = false) :
    videoLoop env span pi (ref :: rest) vi spans calls vs =
      { events := [.startSpan spans "videos-api GET" (some span),
                   .newRequest pi vi "GET" ("http://videos-api:10010/" ++ ref.Id)],
        spans := spans + 1, calls := calls, deferred := [], result := none } := by
  simp [videoLoop, hurl]

theorem videoLoop_transport (env : Env) (span pi : Nat) (ref : videos) (rest : List videos)
    (vi spans calls : Nat) (vs : List videos) (err : String)
    (hurl : env.validURL ("http://videos-api:10010/" ++ ref.Id) = true)
    (hdo : env.Do calls (videoRequest span ref) = .transportError err) :
    videoLoop env span pi (ref :: rest) vi spans calls vs =
      { events := [.startSpan spans "videos-api GET" (some span),
                   .newRequest pi vi "GET" ("http://videos-api:10010/" ++ ref.Id),
                   .clientDo pi vi calls (videoRequest span ref), .println err,
                   .setTagError spans],
        spans := spans + 1, calls := calls + 1, deferred := [], result := some vs } := by
  unfold videoRequest at hdo
  simp [videoLoop, hurl, hdo, videoRequest]

theorem videoLoop_undecoded (env : Env) (span pi : Nat) (ref : videos) (rest : List videos)
    (vi spans calls : Nat) (vs : List videos)
    (hurl : env.validURL ("http://videos-api:10010/" ++ ref.Id) = true)
    (hdo : isTransportError (env.Do calls (videoRequest span ref)) = false)
    (hdec : decoded env (env.Do calls (videoRequest span ref)) = none) :
    videoLoop env span pi (ref :: rest) vi spans calls vs =
      { events := [.startSpan spans "videos-api GET" (some span),
                   .newRequest pi vi "GET" ("http://videos-api:10010/" ++ ref.Id),
                   .clientDo pi vi calls (videoRequest span ref), .finish spans],
        spans := spans + 1, calls := calls + 1, deferred := [.bodyClose calls],
        result := none } := by
  unfold videoRequest at hdo hdec
  unfold videoLoop
  simp only [hurl, if_true]
  split
  · rename_i h; simp [h, isTransportError] at hdo
  · simp [videoRequest]
  · rename_i b h
    simp only [h, decoded] at hdec
    simp [hdec, videoRequest]

theorem videoLoop_decoded (env : Env) (span pi : Nat) (ref : videos) (rest : List videos)
    (vi spans calls : Nat) (vs : List videos) (v : videos)
    (hurl : env.validURL ("http://videos-api:10010/" ++ ref.Id) = true)
    (hdec : decoded env (env.Do calls (videoRequest span ref)) = some v) :
    videoLoop env span pi (ref :: rest) vi spans calls vs =
      { events := [.startSpan spans "videos-api GET" (some span),
                   .newRequest pi vi "GET" ("http://videos-api:10010/" ++ ref.Id),
                   .clientDo pi vi calls (videoRequest span ref), .finish spans]
                  ++ (videoLoop env span pi rest (vi + 1) (spans + 1) (calls + 1) (vs ++ [v])).events,
        spans := (videoLoop env span pi rest (vi + 1) (spans + 1) (calls + 1) (vs ++ [v])).spans,
        calls := (videoLoop env span pi rest (vi + 1) (spans + 1) (calls + 1) (vs ++ [v])).calls,
        deferred := .bodyClose calls
          :: (videoLoop env span pi rest (vi + 1) (spans + 1) (calls + 1) (vs ++ [v])).deferred,
        result := (videoLoop env span pi rest (vi + 1) (spans + 1) (calls + 1) (vs ++ [v])).result } := by
  unfold videoRequest at hdec
  conv => lhs; unfold videoLoop
  simp only [hurl, if_true]
  split
  · rename_i h; simp [h, decoded] at hdec
  · rename_i h; simp [h, decoded] at hdec
  · rename_i b h
    simp only [h, decoded] at hdec
    simp [hdec, videoRequest]

/-! ## Unfolding the specification -/

theorem served_nil (env : Env) (span calls : Nat) : served env span calls [] = [] := by
  simp [served, answers]

theorem served_failing (env : Env) (span calls : Nat) (ref : videos) (rest : List videos)
    (h : isTransportError (env.Do calls (videoRequest span ref)) = true) :
    served env span calls (ref :: rest) = [] := by
  simp [served, answers, h]

theorem served_answering (env : Env) (span calls : Nat) (ref : videos) (rest : List videos)
    (h : isTransportError (env.Do calls (videoRequest span ref)) = false) :
    served env span calls (ref :: rest)
      = env.Do calls (videoRequest span ref) :: served env span (calls + 1) rest := by
  simp [served, answers, h]

theorem requestCount_nil (env : Env) (span calls : Nat) : requestCount env span calls [] = 0 := by
  simp [requestCount]

theorem requestCount_failing (env : Env) (span calls : Nat) (ref : videos) (rest : List videos)
    (h : isTransportError (env.Do calls (videoRequest span ref)) = true) :
    requestCount env span calls (ref :: rest) = 1 := by
  simp [requestCount, served_failing env span calls ref rest h]

theorem requestCount_answering (env : Env) (span calls : Nat) (ref : videos) (rest : List videos)
    (h : isTransportError (env.Do calls (videoRequest span ref)) = false) :
    requestCount env span calls (ref :: rest) = requestCount env span (calls + 1) rest + 1 := by
  simp only [requestCount, served_answering env span calls ref rest h, List.length_cons]
  omega

theorem decoded_not_transport (env : Env) (r : Response) (v : videos)
    (h : decoded env r = some v) : isTransportError r = false := by
  cases r <;> simp_all [decoded, isTransportError]

/-- Each reference falls in one of the four branches of the loop body. -/
theorem videoLoop_cases (env : Env) (span calls : Nat) (ref : videos) :
    env.validURL ("http://videos-api:10010/" ++ ref.Id) = false ∨
    (env.validURL ("http://videos-api:10010/" ++ ref.Id) = true ∧
      ∃ err, env.Do calls (videoRequest span ref) = .transportError err) ∨
    (env.validURL ("http://videos-api:10010/" ++ ref.Id) = true ∧
      isTransportError (env.Do calls (videoRequest span ref)) = false ∧
      decoded env (env.Do calls (videoRequest span ref)) = none) ∨
    (env.validURL ("http://videos-api:10010/" ++ ref.Id) = true ∧
      ∃ v, decoded env (env.Do calls (videoRequest span ref)) = some v) := by
  cases hurl : env.validURL ("http://videos-api:10010/" ++ ref.Id)
  · exact Or.inl rfl
  · right
    cases hdo : env.Do calls (videoRequest span ref) with
    | transportError err => exact Or.inl ⟨rfl, err, rfl⟩
    | response body =>
      right
      cases hdec : decoded env (Response.response body) with
      | none => exact Or.inl ⟨rfl, by simp [isTransportError], rfl⟩
      | some v => exact Or.inr ⟨rfl, v, rfl⟩

/-! ## The inner loop -/

theorem videoLoop_ok (env : Env) (span pi : Nat) :
    ∀ (refs : List videos) (vi spans calls : Nat) (vs : List videos),
      (videoLoop env span pi refs vi spans calls vs).events.all (requestBuilt env) = true →
      (videoLoop env span pi refs vi spans calls vs).events.all (responseDecodes env) = true →
      (videoLoop env span pi refs vi spans calls vs).result
          = some (vs ++ specVideos env span calls refs) ∧
        (videoLoop env span pi refs vi spans calls vs).calls
          = calls + requestCount env span calls refs ∧
        (videoLoop env span pi refs vi spans calls vs).spans
          = spans + requestCount env span calls refs ∧
        List.Forall₂ (fun a v => decoded env a = some v)
          (served env span calls refs) (specVideos env span calls refs) := by
  intro refs
  induction refs with
  | nil =>
    intro vi spans calls vs _ _
    simp [videoLoop, specVideos, served, answers, requestCount]
  | cons ref rest ih =>
    intro vi spans calls vs hb hd
    rcases videoLoop_cases env span calls ref with hurl | ⟨hurl, err, hdo⟩ | ⟨hurl, hnt, hdec⟩
      | ⟨hurl, v, hdec⟩
    · rw [videoLoop_invalid env span pi ref rest vi spans calls vs hurl] at hb
      simp [requestBuilt, hurl] at hb
    · have ht : isTransportError (env.Do calls (videoRequest span ref)) = true := by
        simp [hdo, isTransportError]
      rw [videoLoop_transport env span pi ref rest vi spans calls vs err hurl hdo]
      simp [specVideos, served_failing env span calls ref rest ht,
        requestCount_failing env span calls ref rest ht]
    · rw [videoLoop_undecoded env span pi ref rest vi spans calls vs hurl hnt hdec] at hd
      simp [responseDecodes, decodable, hnt, hdec] at hd
    · have hnt := decoded_not_transport env _ v hdec
      rw [videoLoop_decoded env span pi ref rest vi spans calls vs v hurl hdec] at hb hd ⊢
      simp only [List.all_append, Bool.and_eq_true] at hb hd
      obtain ⟨h1, h2, h3, h4⟩ := ih (vi + 1) (spans + 1) (calls + 1) (vs ++ [v]) hb.2 hd.2
      refine ⟨?_, ?_, ?_, ?_⟩
      · simp [h1, specVideos, served_answering env span calls ref rest hnt, hdec]
      · simp [h2, requestCount_answering env span calls ref rest hnt]; omega
      · simp [h3, requestCount_answering env span calls ref rest hnt]; omega
      · simp only [specVideos, served_answering env span calls ref rest hnt,
          List.filterMap_cons, hdec]
        exact List.Forall₂.cons hdec h4

theorem videoLoop_completed (env : Env) (span pi : Nat) :
    ∀ (refs : List videos) (vi spans calls : Nat) (vs out : List videos),
      (videoLoop env span pi refs vi spans calls vs).result = some out →
      (videoLoop env span pi refs vi spans calls vs).events.all (requestBuilt env) = true ∧
      (videoLoop env span pi refs vi spans calls vs).events.all (responseDecodes env) = true := by
  intro refs
  induction refs with
  | nil => intro vi spans calls vs out _; simp [videoLoop]
  | cons ref rest ih =>
    intro vi spans calls vs out hres
    rcases videoLoop_cases env span calls ref with hurl | ⟨hurl, err, hdo⟩ | ⟨hurl, hnt, hdec⟩
      | ⟨hurl, v, hdec⟩
    · rw [videoLoop_invalid env span pi ref rest vi spans calls vs hurl] at hres
      simp at hres
    · rw [videoLoop_transport env span pi ref rest vi spans calls vs err hurl hdo]
      simp [requestBuilt, responseDecodes, decodable, hurl, hdo, isTransportError]
    · rw [videoLoop_undecoded env span pi ref rest vi spans calls vs hurl hnt hdec] at hres
      simp at hres
    · rw [videoLoop_decoded env span pi ref rest vi spans calls vs v hurl hdec] at hres ⊢
      obtain ⟨h1, h2⟩ := ih (vi + 1) (spans + 1) (calls + 1) (vs ++ [v]) out hres
      simp [requestBuilt, responseDecodes, decodable, hurl, hdec, h1, h2]

/-! ## The outer loop -/

theorem playlistLoop_nil (env : Env) (span pi spans calls : Nat) :
    playlistLoop env span [] pi spans calls =
      { events := [], spans := spans, calls := calls, deferred := [], result := some [] } := by
  simp [playlistLoop]

theorem playlistLoop_panic (env : Env) (span : Nat) (p : playlist) (rest : List playlist)
    (pi spans calls : Nat)
    (h : (videoLoop env span pi p.Videos 0 spans calls []).result = none) :
    playlistLoop env span (p :: rest) pi spans calls =
      { events := (videoLoop env span pi p.Videos 0 spans calls []).events,
        spans := (videoLoop env span pi p.Videos 0 spans calls []).spans,
        calls := (videoLoop env span pi p.Videos 0 spans calls []).calls,
        deferred := (videoLoop env span pi p.Videos 0 spans calls []).deferred,
        result := none } := by
  conv => lhs; unfold playlistLoop
  simp only []
  split
  · rfl
  · rename_i vs hvs; rw [h] at hvs; cases hvs

theorem playlistLoop_next (env : Env) (span : Nat) (p : playlist) (rest : List playlist)
    (pi spans calls : Nat) (vs : List videos)
    (h : (videoLoop env span pi p.Videos 0 spans calls []).result = some vs) :
    playlistLoop env span (p :: rest) pi spans calls =
      { events := (videoLoop env span pi p.Videos 0 spans calls []).events
          ++ (playlistLoop env span rest (pi + 1)
                (videoLoop env span pi p.Videos 0 spans calls []).spans
                (videoLoop env span pi p.Videos 0 spans calls []).calls).events,
        spans := (playlistLoop env span rest (pi + 1)
                (videoLoop env span pi p.Videos 0 spans calls []).spans
                (videoLoop env span pi p.Videos 0 spans calls []).calls).spans,
        calls := (playlistLoop env span rest (pi + 1)
                (videoLoop env span pi p.Videos 0 spans calls []).spans
                (videoLoop env span pi p.Videos 0 spans calls []).calls).calls,
        deferred := (videoLoop env span pi p.Videos 0 spans calls []).deferred
          ++ (playlistLoop env span rest (pi + 1)
                (videoLoop env span pi p.Videos 0 spans calls []).spans
                (videoLoop env span pi p.Videos 0 spans calls []).calls).deferred,
        result := (playlistLoop env span rest (pi + 1)
                (videoLoop env span pi p.Videos 0 spans calls []).spans
                (videoLoop env span pi p.Videos 0 spans calls []).calls).result.map
            (fun done => { p with Videos := vs } :: done) } := by
  conv => lhs; unfold playlistLoop
  simp only []
  split
  · rename_i hvs; rw [h] at hvs; cases hvs
  · rename_i vs2 hvs
    rw [h] at hvs
    cases hvs
    rfl

theorem playlistLoop_ok (env : Env) (span : Nat) :
    ∀ (ps : List playlist) (pi spans calls : Nat),
      (playlistLoop env span ps pi spans calls).events.all (requestBuilt env) = true →
      (playlistLoop env span ps pi spans calls).events.all (responseDecodes env) = true →
      (playlistLoop env span ps pi spans calls).result = some (specEnrich env span calls ps) ∧
      ∀ (j : Nat) (p : playlist), ps[j]? = some p →
        List.Forall₂ (fun a v => decoded env a = some v)
          (served env span (firstCall env span calls ps j) p.Videos)
          (specVideos env span (firstCall env span calls ps j) p.Videos) := by
  intro ps
  induction ps with
  | nil =>
    intro pi spans calls _ _
    simp [playlistLoop, specEnrich]
  | cons p rest ih =>
    intro pi spans calls hb hd
    cases hres : (videoLoop env span pi p.Videos 0 spans calls []).result with
    | none =>
      rw [playlistLoop_panic env span p rest pi spans calls hres] at hb hd
      have := videoLoop_ok env span pi p.Videos 0 spans calls [] hb hd
      rw [hres] at this
      exact absurd this.1 (by simp)
    | some vs =>
      rw [playlistLoop_next env span p rest pi spans calls vs hres] at hb hd ⊢
      simp only [List.all_append, Bool.and_eq_true] at hb hd
      obtain ⟨h1, h2, _, h4⟩ := videoLoop_ok env span pi p.Videos 0 spans calls [] hb.1 hd.1
      rw [h2] at hb hd ⊢
      obtain ⟨i1, i2⟩ := ih (pi + 1) _ _ hb.2 hd.2
      rw [hres] at h1
      simp only [Option.some.injEq, List.nil_append] at h1
      refine ⟨?_, ?_⟩
      · simp [i1, specEnrich, h1]
      · intro j q hq
        cases j with
        | zero =>
          simp only [List.getElem?_cons_zero, Option.some.injEq] at hq
          subst hq
          simpa [firstCall] using h4
        | succ j =>
          simp only [List.getElem?_cons_succ] at hq
          simpa [firstCall] using i2 j q hq

theorem specEnrich_getElem (env : Env) (span : Nat) :
    ∀ (ps : List playlist) (calls j : Nat) (p : playlist), ps[j]? = some p →
      (specEnrich env span calls ps)[j]?
        = some { p with Videos := specVideos env span (firstCall env span calls ps j) p.Videos } := by
  intro ps
  induction ps with
  | nil => intro calls j p h; simp at h
  | cons q rest ih =>
    intro calls j p h
    cases j with
    | zero =>
      simp only [List.getElem?_cons_zero, Option.some.injEq] at h
      subst h
      simp [specEnrich, firstCall]
    | succ j =>
      simp only [List.getElem?_cons_succ] at h
      simpa [specEnrich, firstCall] using ih _ j p h

theorem specEnrich_length (env : Env) (span : Nat) :
    ∀ (ps : List playlist) (calls : Nat), (specEnrich env span calls ps).length = ps.length := by
  intro ps
  induction ps with
  | nil => intro calls; simp [specEnrich]
  | cons q rest ih => intro calls; simp [specEnrich, ih]

theorem playlistLoop_completed (env : Env) (span : Nat) :
    ∀ (ps : List playlist) (pi spans calls : Nat) (out : List playlist),
      (playlistLoop env span ps pi spans calls).result = some out →
      (playlistLoop env span ps pi spans calls).events.all (requestBuilt env) = true ∧
      (playlistLoop env span ps pi spans calls).events.all (responseDecodes env) = true := by
  intro ps
  induction ps with
  | nil => intro pi spans calls out _; simp [playlistLoop]
  | cons p rest ih =>
    intro pi spans calls out hout
    cases hres : (videoLoop env span pi p.Videos 0 spans calls []).result with
    | none =>
      rw [playlistLoop_panic env span p rest pi spans calls hres] at hout
      simp at hout
    | some vs =>
      rw [playlistLoop_next env span p rest pi spans calls vs hres] at hout ⊢
      obtain ⟨h1, h2⟩ := videoLoop_completed env span pi p.Videos 0 spans calls [] vs hres
      cases hnext : (playlistLoop env span rest (pi + 1)
                (videoLoop env span pi p.Videos 0 spans calls []).spans
                (videoLoop env span pi p.Videos 0 spans calls []).calls).result with
      | none => rw [hnext] at hout; simp at hout
      | some done =>
        obtain ⟨i1, i2⟩ := ih _ _ _ done hnext
        simp [h1, h2, i1, i2]

/-! ## The downstream calls of a run -/

theorem videoLoop_requests (env : Env) (span pi : Nat) :
    ∀ (refs : List videos) (vi spans calls : Nat) (vs : List videos),
      (videoLoop env span pi refs vi spans calls vs).events.filter isClientDo
          <+: (requestsFor span pi refs vi calls).take (requestCount env span calls refs) ∧
      ((videoLoop env span pi refs vi spans calls vs).result ≠ none →
        (videoLoop env span pi refs vi spans calls vs).events.filter isClientDo
          = (requestsFor span pi refs vi calls).take (requestCount env span calls refs)) := by
  intro refs
  induction refs with
  | nil =>
    intro vi spans calls vs
    simp [videoLoop, requestsFor]
  | cons ref rest ih =>
    intro vi spans calls vs
    rcases videoLoop_cases env span calls ref with hurl | ⟨hurl, err, hdo⟩ | ⟨hurl, hnt, hdec⟩
      | ⟨hurl, v, hdec⟩
    · rw [videoLoop_invalid env span pi ref rest vi spans calls vs hurl]
      simp [isClientDo]
    · have ht : isTransportError (env.Do calls (videoRequest span ref)) = true := by
        simp [hdo, isTransportError]
      rw [videoLoop_transport env span pi ref rest vi spans calls vs err hurl hdo]
      simp [isClientDo, requestsFor, requestCount_failing env span calls ref rest ht]
    · rw [videoLoop_undecoded env span pi ref rest vi spans calls vs hurl hnt hdec]
      simp [isClientDo, requestsFor, requestCount_answering env span calls ref rest hnt,
        List.take_succ_cons, List.prefix_cons_inj]
    · have hnt := decoded_not_transport env _ v hdec
      rw [videoLoop_decoded env span pi ref rest vi spans calls vs v hurl hdec]
      obtain ⟨h1, h2⟩ := ih (vi + 1) (spans + 1) (calls + 1) (vs ++ [v])
      simp only [List.filter_append, requestsFor,
        requestCount_answering env span calls ref rest hnt, List.take_succ_cons]
      refine ⟨?_, ?_⟩
      · simpa [isClientDo, List.prefix_cons_inj] using h1
      · intro hres
        simpa [isClientDo] using h2 hres

theorem requestsFor_indices (span pi : Nat) :
    ∀ (refs : List videos) (vi calls : Nat),
      (requestsFor span pi refs vi calls).filterMap requestedIndex
        = List.range' vi refs.length := by
  intro refs
  induction refs with
  | nil => intro vi calls; simp [requestsFor]
  | cons ref rest ih =>
    intro vi calls
    simp [requestsFor, requestedIndex, ih, List.range'_succ]

theorem videoLoop_no_retry (env : Env) (span pi : Nat) (refs : List videos)
    (vi spans calls : Nat) (vs : List videos) :
    ((videoLoop env span pi refs vi spans calls vs).events.filterMap requestedIndex).Nodup := by
  have hpre := (videoLoop_requests env span pi refs vi spans calls vs).1
  have hsub : ((videoLoop env span pi refs vi spans calls vs).events.filter isClientDo).Sublist
      (requestsFor span pi refs vi calls) :=
    hpre.sublist.trans (List.take_sublist _ _)
  have hidx : (videoLoop env span pi refs vi spans calls vs).events.filterMap requestedIndex
      = ((videoLoop env span pi refs vi spans calls vs).events.filter isClientDo).filterMap
          requestedIndex := by
    rw [List.filterMap_filter]
    congr 1
    funext e
    cases e <;> simp [isClientDo, requestedIndex, Option.guard]
  rw [hidx]
  have := (hsub.filterMap requestedIndex)
  rw [requestsFor_indices] at this
  exact (List.nodup_range' vi refs.length).sublist this

/-! ## The handler -/

theorem videoLoop_deferred (env : Env) (span pi : Nat) (P : Event → Bool)
    (hP : ∀ n, P (.bodyClose n) = true) :
    ∀ (refs : List videos) (vi spans calls : Nat) (vs : List videos),
      (videoLoop env span pi refs vi spans calls vs).deferred.all P = true := by
  intro refs
  induction refs with
  | nil => intro vi spans calls vs; simp [videoLoop]
  | cons ref rest ih =>
    intro vi spans calls vs
    rcases videoLoop_cases env span calls ref with hurl | ⟨hurl, err, hdo⟩ | ⟨hurl, hnt, hdec⟩
      | ⟨hurl, v, hdec⟩
    · rw [videoLoop_invalid env span pi ref rest vi spans calls vs hurl]; simp
    · rw [videoLoop_transport env span pi ref rest vi spans calls vs err hurl hdo]; simp
    · rw [videoLoop_undecoded env span pi ref rest vi spans calls vs hurl hnt hdec]; simp [hP]
    · rw [videoLoop_decoded env span pi ref rest vi spans calls vs v hurl hdec]
      simp [hP, ih (vi + 1) (spans + 1) (calls + 1) (vs ++ [v])]

theorem playlistLoop_deferred (env : Env) (span : Nat) (P : Event → Bool)
    (hP : ∀ n, P (.bodyClose n) = true) :
    ∀ (ps : List playlist) (pi spans calls : Nat),
      (playlistLoop env span ps pi spans calls).deferred.all P = true := by
  intro ps
  induction ps with
  | nil => intro pi spans calls; simp [playlistLoop]
  | cons p rest ih =>
    intro pi spans calls
    have hin := videoLoop_deferred env span pi P hP p.Videos 0 spans calls []
    cases hres : (videoLoop env span pi p.Videos 0 spans calls []).result with
    | none =>
      rw [playlistLoop_panic env span p rest pi spans calls hres]
      exact hin
    | some vs =>
      rw [playlistLoop_next env span p rest pi spans calls vs hres]
      simp only [List.all_append, Bool.and_eq_true]
      exact ⟨hin, ih _ _ _⟩

theorem getPlaylists_events (env : Env) (parent span : Nat) (P : Event → Bool)
    (hstart : ∀ s op par, P (.startSpan s op par) = true) (hget : ∀ k, P (.rdbGet k) = true)
    (hprint : ∀ m, P (.println m) = true) (htag : ∀ s, P (.setTagError s) = true)
    (hfin : ∀ s, P (.finish s) = true) :
    (getPlaylists env parent span).events.all P = true := by
  unfold getPlaylists
  cases env.rdbGet "playlists" <;> simp [hstart, hget, hprint, htag, hfin]

theorem handler_undecoded (env : Env) (h : Header)
    (hun : env.unmarshalPlaylists (getPlaylists env 0 1).response = none) :
    handler env h =
      { events := .startSpan 0 "/ GET" none :: (getPlaylists env 0 1).events
          ++ runDeferred 0 [],
        header := cors env.environment h, body := "", result := none } := by
  simp [handler, hun]

theorem handler_panic (env : Env) (h : Header) (ps : PlaylistSlice)
    (hps : env.unmarshalPlaylists (getPlaylists env 0 1).response = some ps)
    (hres : (playlistLoop env 0 ps.elems 0 2 0).result = none) :
    handler env h =
      { events := .startSpan 0 "/ GET" none :: (getPlaylists env 0 1).events
          ++ (playlistLoop env 0 ps.elems 0 2 0).events
          ++ runDeferred 0 (playlistLoop env 0 ps.elems 0 2 0).deferred,
        header := cors env.environment h, body := "", result := none } := by
  simp [handler, hps, hres]

theorem handler_done (env : Env) (h : Header) (ps : PlaylistSlice) (out : List playlist)
    (hps : env.unmarshalPlaylists (getPlaylists env 0 1).response = some ps)
    (hres : (playlistLoop env 0 ps.elems 0 2 0).result = some out) :
    handler env h =
      { events := .startSpan 0 "/ GET" none :: (getPlaylists env 0 1).events
          ++ (playlistLoop env 0 ps.elems 0 2 0).events
          ++ runDeferred 0 (playlistLoop env 0 ps.elems 0 2 0).deferred,
        header := cors env.environment h, body := Marshal env.jsonString (ps.assign out),
        result := some (ps.assign out) } := by
  simp [handler, hps, hres]

theorem handler_result (env : Env) (h : Header) (ps : PlaylistSlice)
    (hps : env.unmarshalPlaylists (getPlaylists env 0 1).response = some ps) :
    (handler env h).result = (playlistLoop env 0 ps.elems 0 2 0).result.map ps.assign := by
  cases hres : (playlistLoop env 0 ps.elems 0 2 0).result with
  | none => rw [handler_panic env h ps hps hres]; rfl
  | some out => rw [handler_done env h ps out hps hres]; rfl

theorem handler_events (env : Env) (h : Header) (ps : PlaylistSlice)
    (hps : env.unmarshalPlaylists (getPlaylists env 0 1).response = some ps) :
    (handler env h).events = .startSpan 0 "/ GET" none :: (getPlaylists env 0 1).events
          ++ (playlistLoop env 0 ps.elems 0 2 0).events
          ++ runDeferred 0 (playlistLoop env 0 ps.elems 0 2 0).deferred := by
  cases hres : (playlistLoop env 0 ps.elems 0 2 0).result with
  | none => rw [handler_panic env h ps hps hres]
  | some out => rw [handler_done env h ps out hps hres]

theorem handler_events_all (env : Env) (h : Header) (ps : PlaylistSlice) (P : Event → Bool)
    (hps : env.unmarshalPlaylists (getPlaylists env 0 1).response = some ps)
    (hstart : ∀ s op par, P (.startSpan s op par) = true) (hget : ∀ k, P (.rdbGet k) = true)
    (hprint : ∀ m, P (.println m) = true) (htag : ∀ s, P (.setTagError s) = true)
    (hfin : ∀ s, P (.finish s) = true) (hclose : ∀ n, P (.bodyClose n) = true) :
    (handler env h).events.all P = (playlistLoop env 0 ps.elems 0 2 0).events.all P := by
  rw [handler_events env h ps hps]
  have h1 := getPlaylists_events env 0 1 P hstart hget hprint htag hfin
  have h2 := playlistLoop_deferred env 0 P hclose ps.elems 0 2 0
  simp only [runDeferred, List.cons_append, List.all_cons, List.all_append, List.all_reverse,
    List.all_nil, h1, h2, hstart, hfin, Bool.true_and, Bool.and_true]

theorem handler_events_decode (env : Env) (h : Header) (ps : PlaylistSlice)
    (hps : env.unmarshalPlaylists (getPlaylists env 0 1).response = some ps) :
    (handler env h).events.all (responseDecodes env)
      = (playlistLoop env 0 ps.elems 0 2 0).events.all (responseDecodes env) :=
  handler_events_all env h ps _ hps (fun _ _ _ => rfl) (fun _ => rfl) (fun _ => rfl)
    (fun _ => rfl) (fun _ => rfl) (fun _ => rfl)

theorem handler_events_built (env : Env) (h : Header) (ps : PlaylistSlice)
    (hps : env.unmarshalPlaylists (getPlaylists env 0 1).response = some ps) :
    (handler env h).events.all (requestBuilt env)
      = (playlistLoop env 0 ps.elems 0 2 0).events.all (requestBuilt env) :=
  handler_events_all env h ps _ hps (fun _ _ _ => rfl) (fun _ => rfl) (fun _ => rfl)
    (fun _ => rfl) (fun _ => rfl) (fun _ => rfl)

theorem handler_events_nothing_decoded (env : Env) (h : Header) (P : Event → Bool)
    (hun : env.unmarshalPlaylists (getPlaylists env 0 1).response = none)
    (hstart : ∀ s op par, P (.startSpan s op par) = true) (hget : ∀ k, P (.rdbGet k) = true)
    (hprint : ∀ m, P (.println m) = true) (htag : ∀ s, P (.setTagError s) = true)
    (hfin : ∀ s, P (.finish s) = true) :
    (handler env h).events.all P = true := by
  rw [handler_undecoded env h hun]
  have h1 := getPlaylists_events env 0 1 P hstart hget hprint htag hfin
  simp only [runDeferred, List.cons_append, List.all_cons, List.all_append, List.reverse_nil,
    List.all_nil, h1, hstart, hfin, Bool.true_and, Bool.and_true, List.nil_append]

theorem playlistLoop_frame (env : Env) (span : Nat) :
    ∀ (ps : List playlist) (pi spans calls : Nat) (out : List playlist),
      (playlistLoop env span ps pi spans calls).result = some out →
      out.map (fun p => (p.Id, p.Name)) = ps.map (fun p => (p.Id, p.Name)) := by
  intro ps
  induction ps with
  | nil =>
    intro pi spans calls out hout
    simp [playlistLoop] at hout
    simp [← hout]
  | cons p rest ih =>
    intro pi spans calls out hout
    cases hres : (videoLoop env span pi p.Videos 0 spans calls []).result with
    | none =>
      rw [playlistLoop_panic env span p rest pi spans calls hres] at hout
      simp at hout
    | some vs =>
      rw [playlistLoop_next env span p rest pi spans calls vs hres] at hout
      cases hnext : (playlistLoop env span rest (pi + 1)
                (videoLoop env span pi p.Videos 0 spans calls []).spans
                (videoLoop env span pi p.Videos 0 spans calls []).calls).result with
      | none => rw [hnext] at hout; simp at hout
      | some done =>
        rw [hnext] at hout
        simp only [Option.map_some', Option.some.injEq] at hout
        subst hout
        simp [ih _ _ _ done hnext]

theorem playlistLoop_requests_mem (env : Env) (span : Nat) :
    ∀ (ps : List playlist) (pi spans calls : Nat),
      (playlistLoop env span ps pi spans calls).events.all (requestBuilt env) = true →
      (playlistLoop env span ps pi spans calls).events.all (responseDecodes env) = true →
      ∀ (j : Nat) (p : playlist), ps[j]? = some p →
        ∀ e ∈ (requestsFor span (pi + j) p.Videos 0 (firstCall env span calls ps j)).take
                (requestCount env span (firstCall env span calls ps j) p.Videos),
          e ∈ (playlistLoop env span ps pi spans calls).events := by
  intro ps
  induction ps with
  | nil => intro pi spans calls _ _ j p hp; simp at hp
  | cons q rest ih =>
    intro pi spans calls hb hd j p hp e he
    cases hres : (videoLoop env span pi q.Videos 0 spans calls []).result with
    | none =>
      rw [playlistLoop_panic env span q rest pi spans calls hres] at hb hd
      have := videoLoop_ok env span pi q.Videos 0 spans calls [] hb hd
      rw [hres] at this
      exact absurd this.1 (by simp)
    | some vs =>
      rw [playlistLoop_next env span q rest pi spans calls vs hres] at hb hd ⊢
      simp only [List.all_append, Bool.and_eq_true] at hb hd
      obtain ⟨_, h2, _, _⟩ := videoLoop_ok env span pi q.Videos 0 spans calls [] hb.1 hd.1
      simp only [List.mem_append]
      cases j with
      | zero =>
        simp only [List.getElem?_cons_zero, Option.some.injEq] at hp
        subst hp
        left
        have hreq := (videoLoop_requests env span pi q.Videos 0 spans calls []).2
          (by rw [hres]; simp)
        simp only [firstCall, Nat.add_zero] at he
        rw [← hreq] at he
        exact (List.mem_filter.mp he).1
      | succ j =>
        simp only [List.getElem?_cons_succ] at hp
        right
        rw [h2] at hb hd ⊢
        have hidx : pi + (j + 1) = pi + 1 + j := by omega
        simp only [firstCall, hidx] at he
        exact ih (pi + 1) _ _ hb.2 hd.2 j p hp e he

theorem served_all (env : Env) (span pi : Nat) :
    ∀ (refs : List videos) (vi calls : Nat),
      (∀ vi2 n req, Event.clientDo pi vi2 n req ∈
          (requestsFor span pi refs vi calls).take (requestCount env span calls refs) →
        isTransportError (env.Do n req) = false) →
      served env span calls refs = answers env span calls refs := by
  intro refs
  induction refs with
  | nil => intro vi calls _; simp [served, answers]
  | cons ref rest ih =>
    intro vi calls hall
    have hnt : isTransportError (env.Do calls (videoRequest span ref)) = false := by
      apply hall vi calls (videoRequest span ref)
      have hpos : requestCount env span calls (ref :: rest)
          = (requestCount env span calls (ref :: rest) - 1) + 1 := by
        have : 1 ≤ requestCount env span calls (ref :: rest) := by
          simp [requestCount]
        omega
      rw [hpos]
      simp [requestsFor, List.take_succ_cons]
    rw [served_answering env span calls ref rest hnt]
    simp only [answers]
    congr 1
    apply ih (vi + 1) (calls + 1)
    intro vi2 n req hmem
    apply hall vi2 n req
    rw [requestCount_answering env span calls ref rest hnt]
    simp only [requestsFor, List.take_succ_cons]
    exact List.mem_cons_of_mem _ hmem

theorem answers_length (env : Env) (span : Nat) :
    ∀ (refs : List videos) (calls : Nat), (answers env span calls refs).length = refs.length := by
  intro refs
  induction refs with
  | nil => intro calls; simp [answers]
  | cons ref rest ih => intro calls; simp [answers, ih]

theorem Marshal_empty (q : String → String) : Marshal q (.of []) = "[]" := by
  show marshalArray [] = "[]"
  decide

theorem assign_elems (ps : PlaylistSlice) (out : List playlist)
    (hlen : out.length = ps.elems.length) : (ps.assign out).elems = out := by
  cases ps with
  | nil =>
    have : out = [] := by simpa [PlaylistSlice.elems] using hlen
    simp [PlaylistSlice.assign, PlaylistSlice.elems, this]
  | of elems => rfl

theorem marshal_frame (q : String → String) :
    ∀ (fetched enriched : List playlist),
      enriched.map (fun p => (p.Id, p.Name)) = fetched.map (fun p => (p.Id, p.Name)) →
      enriched.map (marshalPlaylist q)
        = List.zipWith (fun p e => "\x7b\"id\":" ++ q p.Id ++ ",\"name\":" ++ q p.Name
            ++ ",\"videos\":" ++ marshalArray (e.Videos.map (marshalVideo q)) ++ "\x7d")
          fetched enriched := by
  intro fetched
  induction fetched with
  | nil =>
    intro enriched hmap
    have : enriched = [] := by simpa using hmap
    simp [this]
  | cons p rest ih =>
    intro enriched hmap
    cases enriched with
    | nil => simp at hmap
    | cons e more =>
      simp only [List.map_cons, List.cons.injEq, Prod.mk.injEq] at hmap
      obtain ⟨⟨hid, hname⟩, hrest⟩ := hmap
      simp only [List.map_cons, List.zipWith_cons_cons, ih more hrest, marshalPlaylist, hid,
        hname]

/-! ## The claims -/

set_option maxRecDepth 100000

/-- C9: in DEBUG, `cors` sets Access-Control-Allow-Origin to `*` together with the
Allow-Methods, Allow-Headers and Allow-Credentials headers and leaves every other header
of `h` as it was; for any other environment value `cors` leaves `h` unchanged, so a map
without Access-Control-Allow-Origin still lacks it. -/
theorem cors_toggle (environment : String) (h : Header) :
    (environment = "DEBUG" →
      cors environment h "Access-Control-Allow-Origin" = some ["*"] ∧
      cors environment h "Access-Control-Allow-Methods"
        = some ["POST, GET, OPTIONS, PUT, DELETE"] ∧
      cors environment h "Access-Control-Allow-Headers"
        = some ["Content-Type, Content-Length, Accept-Encoding, X-CSRF-Token, Authorization, accept, origin, Cache-Control, X-Requested-With, X-MY-API-Version"] ∧
      cors environment h "Access-Control-Allow-Credentials" = some ["true"] ∧
      ∀ k, k ≠ "Access-Control-Allow-Origin" → k ≠ "Access-Control-Allow-Methods" →
        k ≠ "Access-Control-Allow-Headers" → k ≠ "Access-Control-Allow-Credentials" →
        cors environment h k = h k) ∧
    (environment ≠ "DEBUG" →
      cors environment h = h ∧
      (h "Access-Control-Allow-Origin" = none →
        cors environment h "Access-Control-Allow-Origin" = none)) := by
  constructor
  · intro henv
    subst henv
    refine ⟨?_, ?_, ?_, ?_, ?_⟩
    · simp [cors, headerSet]
    · simp [cors, headerSet]
    · simp [cors, headerSet]
    · simp [cors, headerSet]
    · intro k h1 h2 h3 h4
      simp [cors, headerSet, h1, h2, h3, h4]
  · intro henv
    have : cors environment h = h := by simp [cors, henv]
    exact ⟨this, fun hnone => by rw [this]; exact hnone⟩

/-- Witness of C9: with DEBUG the sample header map gains the origin header and keeps its
Content-Type; with "PRODUCTION" it is unchanged and has no origin header. -/
theorem cors_toggle_witness :
    (cors "DEBUG" sampleHeader "Access-Control-Allow-Origin" = some ["*"] ∧
      cors "DEBUG" sampleHeader "Content-Type" = sampleHeader "Content-Type") ∧
    ("PRODUCTION" ≠ "DEBUG" ∧ cors "PRODUCTION" sampleHeader = sampleHeader ∧
      cors "PRODUCTION" sampleHeader "Access-Control-Allow-Origin" = none) :=
  ⟨⟨((cors_toggle "DEBUG" sampleHeader).1 rfl).1,
    ((cors_toggle "DEBUG" sampleHeader).1 rfl).2.2.2.2 "Content-Type"
      (by decide) (by decide) (by decide) (by decide)⟩,
   by decide, ((cors_toggle "PRODUCTION" sampleHeader).2 (by decide)).1,
   ((cors_toggle "PRODUCTION" sampleHeader).2 (by decide)).2 rfl⟩

/-- C4: when the lookup of key "playlists" fails, `getPlaylists` returns "[]"; when it
succeeds, it returns the stored string unchanged.  In the failing case the handler
(given that `json.Unmarshal` turns "[]" into the empty, non-nil slice) completes with
zero playlists and writes exactly the body `[]`. -/
theorem getPlaylists_fail_open (env : Env) (h : Header) (parent span : Nat) :
    (∀ err, env.rdbGet "playlists" = .error err →
      (getPlaylists env parent span).response = "[]") ∧
    (∀ data, env.rdbGet "playlists" = .ok data →
      (getPlaylists env parent span).response = data) ∧
    (∀ err, env.rdbGet "playlists" = .error err →
      env.unmarshalPlaylists "[]" = some (.of []) →
      (handler env h).result = some (.of []) ∧ (handler env h).body = "[]") := by
  refine ⟨?_, ?_, ?_⟩
  · intro err herr
    simp [getPlaylists, herr]
  · intro data hdata
    simp [getPlaylists, hdata]
  · intro err herr hjson
    have hresp : (getPlaylists env 0 1).response = "[]" := by simp [getPlaylists, herr]
    have hps : env.unmarshalPlaylists (getPlaylists env 0 1).response = some (.of []) := by
      rw [hresp]; exact hjson
    rw [handler_done env h (.of []) [] hps (by simp [playlistLoop, PlaylistSlice.elems])]
    exact ⟨rfl, Marshal_empty _⟩

/-- Witness of C4: a store that answers "redis: nil" (missing key) makes the handler
write `[]`; a store that holds `favoritesJson` makes `getPlaylists` return it. -/
theorem getPlaylists_fail_open_witness :
    (sampleEnv (.error "redis: nil") [] [] []).rdbGet "playlists" = .error "redis: nil" ∧
    (sampleEnv (.error "redis: nil") [] [] []).unmarshalPlaylists "[]" = some (.of []) ∧
    (getPlaylists (sampleEnv (.error "redis: nil") [] [] []) 0 1).response = "[]" ∧
    (handler (sampleEnv (.error "redis: nil") [] [] []) sampleHeader).body = "[]" ∧
    (getPlaylists favoritesEnv 0 1).response = favoritesJson :=
  ⟨rfl, rfl,
   (getPlaylists_fail_open (sampleEnv (.error "redis: nil") [] [] []) sampleHeader 0 1).1
     "redis: nil" rfl,
   ((getPlaylists_fail_open (sampleEnv (.error "redis: nil") [] [] []) sampleHeader 0 1).2.2
     "redis: nil" rfl rfl).2,
   (getPlaylists_fail_open favoritesEnv sampleHeader 0 1).2.1 favoritesJson rfl⟩

/-- C10, as the claim states it, fails: the store holds the JSON value `null`, which
decodes without error to the nil slice, that is to zero playlists; the handler makes no
downstream call but writes the body `null`, not `[]`. -/
theorem empty_playlists_counterexample :
    nullStoreEnv.unmarshalPlaylists (getPlaylists nullStoreEnv 0 1).response = some .nil ∧
    PlaylistSlice.nil.elems = [] ∧
    (handler nullStoreEnv sampleHeader).events.filter isClientDo = [] ∧
    (handler nullStoreEnv sampleHeader).body = "null" ∧
    (handler nullStoreEnv sampleHeader).body ≠ "[]" := by
  refine ⟨rfl, rfl, by decide, by decide, by decide⟩

/-- C10 amended: when the store payload decodes to zero playlists the handler makes no
downstream call (its only calls are those of the root span and of `getPlaylists`); it
writes exactly `[]` when the decoded slice is empty and not nil, and exactly `null` when
it is the nil slice that the payload `null` decodes to. -/
theorem empty_playlists (env : Env) (h : Header) (ps : PlaylistSlice)
    (hps : env.unmarshalPlaylists (getPlaylists env 0 1).response = some ps)
    (hzero : ps.elems = []) :
    (handler env h).events
        = .startSpan 0 "/ GET" none :: (getPlaylists env 0 1).events ++ [.finish 0] ∧
      (handler env h).events.filter isClientDo = [] ∧
      (handler env h).result = some ps ∧
      (ps = .of [] → (handler env h).body = "[]") ∧
      (ps = .nil → (handler env h).body = "null") := by
  have hres : (playlistLoop env 0 ps.elems 0 2 0).result = some [] := by
    rw [hzero]; simp [playlistLoop]
  rw [handler_done env h ps [] hps hres, hzero]
  refine ⟨by simp [playlistLoop, runDeferred], ?_, ?_, ?_, ?_⟩
  · simp only [playlistLoop, runDeferred, List.append_nil, List.reverse_nil, List.nil_append]
    unfold getPlaylists
    cases env.rdbGet "playlists" <;> simp [isClientDo]
  · cases ps with
    | nil => rfl
    | of elems =>
      have : elems = [] := hzero
      subst this
      rfl
  · intro hof
    subst hof
    exact Marshal_empty _
  · intro hnil
    subst hnil
    rfl

/-- Witness of C10 amended: the store holds the payload `[]`, and the body is `[]`; the
store holds the payload `null`, and the body is `null`. -/
theorem empty_playlists_witness :
    (sampleEnv (.ok "[]") [] [] []).unmarshalPlaylists
        (getPlaylists (sampleEnv (.ok "[]") [] [] []) 0 1).response = some (.of []) ∧
    (handler (sampleEnv (.ok "[]") [] [] []) sampleHeader).events.filter isClientDo = [] ∧
    (handler (sampleEnv (.ok "[]") [] [] []) sampleHeader).body = "[]" ∧
    (handler nullStoreEnv sampleHeader).body = "null" :=
  ⟨rfl, (empty_playlists (sampleEnv (.ok "[]") [] [] []) sampleHeader (.of []) rfl rfl).2.1,
   (empty_playlists (sampleEnv (.ok "[]") [] [] []) sampleHeader (.of []) rfl rfl).2.2.2.1 rfl,
   (empty_playlists nullStoreEnv sampleHeader .nil rfl rfl).2.2.2.2 rfl⟩

/-- C5, as the claim states it, fails: the store answers "oops", which does not decode;
the handler panics and writes nothing, so the body is not `[]`. -/
theorem undecodable_store_counterexample :
    brokenStoreEnv.rdbGet "playlists" = .ok "oops" ∧
    brokenStoreEnv.unmarshalPlaylists "oops" = none ∧
    (handler brokenStoreEnv sampleHeader).result = none ∧
    (handler brokenStoreEnv sampleHeader).body = "" ∧
    (handler brokenStoreEnv sampleHeader).body ≠ "[]" := by
  refine ⟨rfl, rfl, rfl, rfl, by decide⟩

/-- C5 amended: when the store lookup succeeds with data that `json.Unmarshal` rejects,
the handler panics (app.go:87-89): it makes no downstream call and writes nothing. -/
theorem undecodable_store_aborts (env : Env) (h : Header) (data : String)
    (hget : env.rdbGet "playlists" = .ok data)
    (hbad : env.unmarshalPlaylists data = none) :
    (handler env h).result = none ∧ (handler env h).body = "" ∧
      (handler env h).events.filter isClientDo = [] := by
  have hresp : (getPlaylists env 0 1).response = data := by simp [getPlaylists, hget]
  have hun : env.unmarshalPlaylists (getPlaylists env 0 1).response = none := by
    rw [hresp]; exact hbad
  rw [handler_undecoded env h hun]
  refine ⟨rfl, rfl, ?_⟩
  simp [getPlaylists, hget, runDeferred, isClientDo]

/-- Witness of C5 amended: the store answers "oops". -/
theorem undecodable_store_aborts_witness :
    brokenStoreEnv.rdbGet "playlists" = .ok "oops" ∧
    brokenStoreEnv.unmarshalPlaylists "oops" = none ∧
    (handler brokenStoreEnv sampleHeader).result = none ∧
    (handler brokenStoreEnv sampleHeader).body = "" ∧
    (handler brokenStoreEnv sampleHeader).events.filter isClientDo = [] :=
  ⟨rfl, rfl, undecodable_store_aborts brokenStoreEnv sampleHeader "oops" rfl rfl⟩

/-- C1: in a run of the enrichment loop in which every response received decodes, the
loop completes exactly when every request it attempts can be built, and after it the
`Videos` of each playlist are the records decoded from the answers to its references that
come before the first transport failure (all of them when no call fails), in reference
order. -/
theorem enrichment_videos (env : Env) (span : Nat) (ps : List playlist) (pi spans calls : Nat)
    (hdecodes :
      (playlistLoop env span ps pi spans calls).events.all (responseDecodes env) = true) :
    ((∃ out, (playlistLoop env span ps pi spans calls).result = some out) ↔
      (playlistLoop env span ps pi spans calls).events.all (requestBuilt env) = true) ∧
    ∀ out, (playlistLoop env span ps pi spans calls).result = some out →
      out.length = ps.length ∧
      ∀ (j : Nat) (p : playlist), ps[j]? = some p →
        ∃ q, out[j]? = some q ∧
          List.Forall₂ (fun a v => decoded env a = some v)
            (served env span (firstCall env span calls ps j) p.Videos) q.Videos := by
  constructor
  · constructor
    · rintro ⟨out, hout⟩
      exact (playlistLoop_completed env span ps pi spans calls out hout).1
    · intro hbuilt
      exact ⟨_, (playlistLoop_ok env span ps pi spans calls hbuilt hdecodes).1⟩
  · intro out hout
    have hbuilt := (playlistLoop_completed env span ps pi spans calls out hout).1
    obtain ⟨hres, hall⟩ := playlistLoop_ok env span ps pi spans calls hbuilt hdecodes
    rw [hres] at hout
    cases hout
    refine ⟨specEnrich_length env span ps calls, ?_⟩
    intro j p hp
    exact ⟨_, specEnrich_getElem env span ps calls j p hp, hall j p hp⟩

/-- Witness of C1: references v1, v2, v3 with the call for v2 failing give the record of
v1 alone; with no call failing they give the records of v1, v2, v3 in that order. -/
theorem enrichment_videos_witness :
    (playlistLoop (threeEnv ["v2"] []) 0 [⟨"p1", "Favorites", threeRefs⟩] 0 2 0).events.all
        (responseDecodes (threeEnv ["v2"] [])) = true ∧
    (playlistLoop (threeEnv ["v2"] []) 0 [⟨"p1", "Favorites", threeRefs⟩] 0 2 0).result
      = some [⟨"p1", "Favorites", [sampleVideo "v1"]⟩] ∧
    ([(⟨"p1", "Favorites", [sampleVideo "v1"]⟩ : playlist)].length
        = [(⟨"p1", "Favorites", threeRefs⟩ : playlist)].length ∧
      ∀ (j : Nat) (p : playlist), [(⟨"p1", "Favorites", threeRefs⟩ : playlist)][j]? = some p →
        ∃ q, [(⟨"p1", "Favorites", [sampleVideo "v1"]⟩ : playlist)][j]? = some q ∧
          List.Forall₂ (fun a v => decoded (threeEnv ["v2"] []) a = some v)
            (served (threeEnv ["v2"] []) 0
              (firstCall (threeEnv ["v2"] []) 0 0 [⟨"p1", "Favorites", threeRefs⟩] j) p.Videos)
            q.Videos) ∧
    served (threeEnv ["v2"] []) 0 0 threeRefs = [.response (some (sampleBody "v1"))] ∧
    (playlistLoop (threeEnv [] []) 0 [⟨"p1", "Favorites", threeRefs⟩] 0 2 0).result
      = some [⟨"p1", "Favorites", [sampleVideo "v1", sampleVideo "v2", sampleVideo "v3"]⟩] :=
  ⟨by decide, by decide,
   (enrichment_videos (threeEnv ["v2"] []) 0 [⟨"p1", "Favorites", threeRefs⟩] 0 2 0
     (by decide)).2 _ (by decide),
   by decide, by decide⟩

/-- C2, as the claim states it, fails: with references v1, v2, v3, no transport failure
and a garbled answer for v1, the claim asks for one call per reference, but the loop
panics after the call for v1 and never requests v2 and v3. -/
theorem video_requests_counterexample :
    (videoLoop (threeEnv [] ["v1"]) 0 0 threeRefs 0 2 0 []).events.filter isClientDo
      = [.clientDo 0 0 0 (videoRequest 0 (ref "v1"))] ∧
    (requestsFor 0 0 threeRefs 0 0).take (requestCount (threeEnv [] ["v1"]) 0 0 threeRefs)
      = [.clientDo 0 0 0 (videoRequest 0 (ref "v1")),
         .clientDo 0 1 1 (videoRequest 0 (ref "v2")),
         .clientDo 0 2 2 (videoRequest 0 (ref "v3"))] ∧
    (videoLoop (threeEnv [] ["v1"]) 0 0 threeRefs 0 2 0 []).events.filter isClientDo
      ≠ (requestsFor 0 0 threeRefs 0 0).take (requestCount (threeEnv [] ["v1"]) 0 0 threeRefs) := by
  refine ⟨by decide, by decide, by decide⟩

/-- C2 amended: the downstream calls the inner loop makes for a playlist are an initial
part of the sequence "one call per reference, in reference order, up to and including the
first reference whose call fails with a transport error"; they are that whole sequence
when the loop does not panic; and no reference index is requested twice. -/
theorem video_requests (env : Env) (span pi : Nat) (refs : List videos)
    (vi spans calls : Nat) (vs : List videos) :
    (videoLoop env span pi refs vi spans calls vs).events.filter isClientDo
        <+: (requestsFor span pi refs vi calls).take (requestCount env span calls refs) ∧
    ((videoLoop env span pi refs vi spans calls vs).result ≠ none →
      (videoLoop env span pi refs vi spans calls vs).events.filter isClientDo
        = (requestsFor span pi refs vi calls).take (requestCount env span calls refs)) ∧
    ((videoLoop env span pi refs vi spans calls vs).events.filterMap requestedIndex).Nodup :=
  ⟨(videoLoop_requests env span pi refs vi spans calls vs).1,
   (videoLoop_requests env span pi refs vi spans calls vs).2,
   videoLoop_no_retry env span pi refs vi spans calls vs⟩

/-- Witness of C2 amended: references v1, v2, v3 with the call for v2 failing: v1 and v2
are requested once each, v3 is not requested. -/
theorem video_requests_witness :
    (videoLoop (threeEnv ["v2"] []) 0 0 threeRefs 0 2 0 []).result ≠ none ∧
    (videoLoop (threeEnv ["v2"] []) 0 0 threeRefs 0 2 0 []).events.filter isClientDo
      = (requestsFor 0 0 threeRefs 0 0).take (requestCount (threeEnv ["v2"] []) 0 0 threeRefs) ∧
    (requestsFor 0 0 threeRefs 0 0).take (requestCount (threeEnv ["v2"] []) 0 0 threeRefs)
      = [.clientDo 0 0 0 (videoRequest 0 (ref "v1")),
         .clientDo 0 1 1 (videoRequest 0 (ref "v2"))] :=
  ⟨by decide,
   (video_requests (threeEnv ["v2"] []) 0 0 threeRefs 0 2 0 []).2.1 (by decide),
   by decide⟩

/-- C3: the enrichment loop completes exactly when every request it attempts can be built
and every response it receives decodes.  After it, if some call for a playlist A failed
with a transport error and no call for a later playlist B did, the enriched B keeps its id
and name and its `Videos` has as many records as B has references: the record decoded
from the answer to each reference, in order. -/
theorem enrichment_independent (env : Env) (span : Nat) (before : List playlist) (A : playlist)
    (between : List playlist) (B : playlist) (after : List playlist) (pi spans calls : Nat)
    (_hA : ∃ vi n req, Event.clientDo (pi + before.length) vi n req ∈
        (playlistLoop env span (before ++ A :: between ++ B :: after) pi spans calls).events ∧
      isTransportError (env.Do n req) = true)
    (hB : ∀ vi n req, Event.clientDo (pi + (before.length + 1 + between.length)) vi n req ∈
        (playlistLoop env span (before ++ A :: between ++ B :: after) pi spans calls).events →
      isTransportError (env.Do n req) = false) :
    ((∃ out, (playlistLoop env span (before ++ A :: between ++ B :: after) pi spans
        calls).result = some out) ↔
      ((playlistLoop env span (before ++ A :: between ++ B :: after) pi spans
          calls).events.all (requestBuilt env) = true ∧
        (playlistLoop env span (before ++ A :: between ++ B :: after) pi spans
          calls).events.all (responseDecodes env) = true)) ∧
    ∀ out, (playlistLoop env span (before ++ A :: between ++ B :: after) pi spans
        calls).result = some out →
      ∃ q, out[before.length + 1 + between.length]? = some q ∧
        q.Id = B.Id ∧ q.Name = B.Name ∧ q.Videos.length = B.Videos.length ∧
        List.Forall₂ (fun a v => decoded env a = some v)
          (answers env span
            (firstCall env span calls (before ++ A :: between ++ B :: after)
              (before.length + 1 + between.length)) B.Videos)
          q.Videos := by
  constructor
  · constructor
    · rintro ⟨out, hout⟩
      exact playlistLoop_completed env span _ pi spans calls out hout
    · rintro ⟨hbuilt, hdecodes⟩
      exact ⟨_, (playlistLoop_ok env span _ pi spans calls hbuilt hdecodes).1⟩
  · intro out hout
    obtain ⟨hbuilt, hdecodes⟩ := playlistLoop_completed env span _ pi spans calls out hout
    have hidx : (before ++ A :: between ++ B :: after)[before.length + 1 + between.length]?
        = some B := by
      have hlen : (before ++ A :: between).length = before.length + 1 + between.length := by
        simp; omega
      rw [← hlen, List.getElem?_append_right (Nat.le_refl _)]
      simp
    obtain ⟨hres, hall⟩ := playlistLoop_ok env span _ pi spans calls hbuilt hdecodes
    have hq := specEnrich_getElem env span _ calls _ B hidx
    have hmem := playlistLoop_requests_mem env span _ pi spans calls hbuilt hdecodes _ B hidx
    have hserved := served_all env span (pi + (before.length + 1 + between.length)) B.Videos 0
      (firstCall env span calls (before ++ A :: between ++ B :: after)
        (before.length + 1 + between.length))
      (fun vi2 n req hin => hB vi2 n req (hmem _ hin))
    have hforall := hall _ B hidx
    rw [hserved] at hforall
    rw [hres] at hout
    cases hout
    refine ⟨_, hq, rfl, rfl, ?_, hforall⟩
    have := hforall.length_eq
    rw [answers_length] at this
    exact this.symm

/-- Witness of C3: playlist A has references v1, v2 and the call for v2 fails; playlist B
has references v3, v1 and both calls succeed: B gets both records. -/
theorem enrichment_independent_witness :
    (playlistLoop (sampleEnv (.ok "") [] ["v2"] []) 0 twoPlaylists 0 2 0).result
      = some [⟨"pA", "A", [sampleVideo "v1"]⟩,
              ⟨"pB", "B", [sampleVideo "v3", sampleVideo "v1"]⟩] ∧
    (∃ q, [(⟨"pA", "A", [sampleVideo "v1"]⟩ : playlist),
          ⟨"pB", "B", [sampleVideo "v3", sampleVideo "v1"]⟩][([] : List playlist).length + 1
            + ([] : List playlist).length]? = some q ∧
      q.Id = "pB" ∧ q.Name = "B" ∧ q.Videos.length = [ref "v3", ref "v1"].length ∧
      List.Forall₂ (fun a v => decoded (sampleEnv (.ok "") [] ["v2"] []) a = some v)
        (answers (sampleEnv (.ok "") [] ["v2"] []) 0
          (firstCall (sampleEnv (.ok "") [] ["v2"] []) 0 0
            ([] ++ (⟨"pA", "A", [ref "v1", ref "v2"]⟩ : playlist) :: []
              ++ (⟨"pB", "B", [ref "v3", ref "v1"]⟩ : playlist) :: [])
            (([] : List playlist).length + 1 + ([] : List playlist).length))
          [ref "v3", ref "v1"])
        q.Videos) := by
  have hev : (playlistLoop (sampleEnv (.ok "") [] ["v2"] []) 0
      ([] ++ (⟨"pA", "A", [ref "v1", ref "v2"]⟩ : playlist) :: []
        ++ (⟨"pB", "B", [ref "v3", ref "v1"]⟩ : playlist) :: []) 0 2 0).events
      = [.startSpan 2 "videos-api GET" (some 0),
         .newRequest 0 0 "GET" "http://videos-api:10010/v1",
         .clientDo 0 0 0 (videoRequest 0 (ref "v1")), .finish 2,
         .startSpan 3 "videos-api GET" (some 0),
         .newRequest 0 1 "GET" "http://videos-api:10010/v2",
         .clientDo 0 1 1 (videoRequest 0 (ref "v2")), .println "connection refused",
         .setTagError 3,
         .startSpan 4 "videos-api GET" (some 0),
         .newRequest 1 0 "GET" "http://videos-api:10010/v3",
         .clientDo 1 0 2 (videoRequest 0 (ref "v3")), .finish 4,
         .startSpan 5 "videos-api GET" (some 0),
         .newRequest 1 1 "GET" "http://videos-api:10010/v1",
         .clientDo 1 1 3 (videoRequest 0 (ref "v1")), .finish 5] := by decide
  refine ⟨by decide, (enrichment_independent (sampleEnv (.ok "") [] ["v2"] []) 0 []
      ⟨"pA", "A", [ref "v1", ref "v2"]⟩ [] ⟨"pB", "B", [ref "v3", ref "v1"]⟩ [] 0 2 0
      ⟨1, 1, videoRequest 0 (ref "v2"), by decide, by decide⟩ ?_).2 _ (by decide)⟩
  intro vi n req hin
  rw [hev] at hin
  simp at hin
  rcases hin with ⟨rfl, rfl, rfl⟩ | ⟨rfl, rfl, rfl⟩ <;> decide

/-- C6, as the claim states it, fails: the store payload decodes, no response fails to
decode (no call is made at all), and yet the handler panics, because the request for the
reference with id `%` cannot be built (app.go:101-104). -/
theorem decode_failure_counterexample :
    percentEnv.unmarshalPlaylists (getPlaylists percentEnv 0 1).response
      = some (.of [⟨"p1", "Favorites", [ref "%"]⟩]) ∧
    (handler percentEnv sampleHeader).events.all (responseDecodes percentEnv) = true ∧
    (handler percentEnv sampleHeader).events.filter isClientDo = [] ∧
    (handler percentEnv sampleHeader).result = none := by
  refine ⟨by decide, by decide, by decide, by decide⟩

/-- C6 amended: if the response of some attempted downstream call does not decode, the
handler panics and writes nothing; conversely, when the store payload decodes, every
attempted request can be built and every attempted response decodes, the handler
completes and writes the encoding of the enriched playlists. -/
theorem decode_failure_aborts (env : Env) (h : Header) :
    ((∃ pi vi n req, Event.clientDo pi vi n req ∈ (handler env h).events ∧
        decodable env (env.Do n req) = false) →
      (handler env h).result = none ∧ (handler env h).body = "") ∧
    (∀ ps, env.unmarshalPlaylists (getPlaylists env 0 1).response = some ps →
      (handler env h).events.all (requestBuilt env) = true →
      (handler env h).events.all (responseDecodes env) = true →
      ∃ out, (handler env h).result = some out ∧
        (handler env h).body = Marshal env.jsonString out) := by
  constructor
  · rintro ⟨pi, vi, n, req, hin, hbad⟩
    have hnot : (handler env h).events.all (responseDecodes env) ≠ true := by
      intro hall
      have := List.all_eq_true.mp hall _ hin
      simp [responseDecodes, hbad] at this
    cases hps : env.unmarshalPlaylists (getPlaylists env 0 1).response with
    | none =>
      exact absurd (handler_events_nothing_decoded env h _ hps (fun _ _ _ => rfl)
        (fun _ => rfl) (fun _ => rfl) (fun _ => rfl) (fun _ => rfl)) hnot
    | some ps =>
      cases hres : (playlistLoop env 0 ps.elems 0 2 0).result with
      | none =>
        rw [handler_panic env h ps hps hres]
        exact ⟨rfl, rfl⟩
      | some out =>
        rw [handler_events_decode env h ps hps] at hnot
        exact absurd (playlistLoop_completed env 0 ps.elems 0 2 0 out hres).2 hnot
  · intro ps hps hbuilt hdecodes
    rw [handler_events_built env h ps hps] at hbuilt
    rw [handler_events_decode env h ps hps] at hdecodes
    obtain ⟨hres, _⟩ := playlistLoop_ok env 0 ps.elems 0 2 0 hbuilt hdecodes
    rw [handler_done env h ps _ hps hres]
    exact ⟨_, rfl, rfl⟩

/-- Witness of C6 amended: a garbled answer for v1 makes the handler panic with nothing
written; with the call for v2 failing and a garbled answer waiting for v3, which is never
requested, the handler completes. -/
theorem decode_failure_aborts_witness :
    ((handler (threeEnv [] ["v1"]) sampleHeader).result = none ∧
      (handler (threeEnv [] ["v1"]) sampleHeader).body = "") ∧
    (decodable (threeEnv ["v2"] ["v3"])
        ((threeEnv ["v2"] ["v3"]).Do 2 (videoRequest 0 (ref "v3"))) = false ∧
      ∃ out, (handler (threeEnv ["v2"] ["v3"]) sampleHeader).result = some out ∧
        (handler (threeEnv ["v2"] ["v3"]) sampleHeader).body
          = Marshal (threeEnv ["v2"] ["v3"]).jsonString out) :=
  ⟨(decode_failure_aborts (threeEnv [] ["v1"]) sampleHeader).1
      ⟨0, 0, 0, videoRequest 0 (ref "v1"), by decide, by decide⟩,
   by decide,
   (decode_failure_aborts (threeEnv ["v2"] ["v3"]) sampleHeader).2
      (.of [⟨"p1", "Favorites", threeRefs⟩]) (by decide) (by decide) (by decide)⟩

/-- C7: when the store payload decodes to `ps` and the handler does not panic, the
enriched list has as many playlists as `ps`, with the same ids and names at the same
positions, and this is what is written: for the nil slice the body is `null`; otherwise
the body is the JSON array with one object per fetched playlist, in the fetched order,
each with the id and the name of the fetched playlist and the videos of the enriched
one. -/
theorem enrichment_frame (env : Env) (h : Header) (ps out : PlaylistSlice)
    (hps : env.unmarshalPlaylists (getPlaylists env 0 1).response = some ps)
    (hout : (handler env h).result = some out) :
    out.elems.length = ps.elems.length ∧
      out.elems.map (fun p => (p.Id, p.Name)) = ps.elems.map (fun p => (p.Id, p.Name)) ∧
      (∀ (j : Nat) (q : playlist), out.elems[j]? = some q →
        ∃ p, ps.elems[j]? = some p ∧ q.Id = p.Id ∧ q.Name = p.Name) ∧
      (ps = .nil → out = .nil ∧ (handler env h).body = "null") ∧
      (∀ fetched, ps = .of fetched →
        out = .of out.elems ∧
        (handler env h).body
          = "[" ++ ",".intercalate
              (List.zipWith
                (fun p e => "\x7b\"id\":" ++ env.jsonString p.Id ++ ",\"name\":"
                  ++ env.jsonString p.Name ++ ",\"videos\":"
                  ++ marshalArray (e.Videos.map (marshalVideo env.jsonString)) ++ "\x7d")
                fetched out.elems)
            ++ "]") := by
  rw [handler_result env h ps hps] at hout
  cases hres : (playlistLoop env 0 ps.elems 0 2 0).result with
  | none => rw [hres] at hout; cases hout
  | some enriched =>
    rw [hres] at hout
    simp only [Option.map_some', Option.some.injEq] at hout
    have hmap := playlistLoop_frame env 0 ps.elems 0 2 0 enriched hres
    have hlen : enriched.length = ps.elems.length := by
      simpa using congrArg List.length hmap
    have helems : out.elems = enriched := by
      rw [← hout]; exact assign_elems ps enriched hlen
    rw [helems, handler_done env h ps enriched hps hres]
    refine ⟨hlen, hmap, ?_, ?_, ?_⟩
    · intro j q hq
      have hj : j < enriched.length := by
        by_contra hge
        rw [List.getElem?_eq_none (by omega)] at hq
        cases hq
      have hjp : j < ps.elems.length := by omega
      refine ⟨ps.elems[j], List.getElem?_eq_getElem hjp, ?_⟩
      have hqe : enriched[j] = q := by
        rw [List.getElem?_eq_getElem hj] at hq
        exact Option.some.inj hq
      have h1 : (enriched.map (fun p => (p.Id, p.Name)))[j]?
          = (ps.elems.map (fun p => (p.Id, p.Name)))[j]? := by
        rw [hmap]
      simp only [List.getElem?_map, List.getElem?_eq_getElem hj,
        List.getElem?_eq_getElem hjp, Option.map_some', Option.some.injEq,
        Prod.mk.injEq] at h1
      rw [hqe] at h1
      exact h1
    · intro hnil
      subst hnil
      exact ⟨hout.symm, rfl⟩
    · intro fetched hof
      subst hof
      refine ⟨hout.symm, ?_⟩
      show marshalArray (enriched.map (marshalPlaylist env.jsonString)) = _
      rw [marshal_frame env.jsonString fetched enriched hmap]
      rfl

/-- Witness of C7: the scenario of spec §8; the body is the array with the one playlist
p1, Favorites, holding the record of v1. -/
theorem enrichment_frame_witness :
    favoritesEnv.unmarshalPlaylists (getPlaylists favoritesEnv 0 1).response
      = some (.of favorites) ∧
    (handler favoritesEnv sampleHeader).result
      = some (.of [⟨"p1", "Favorites", [sampleVideo "v1"]⟩]) ∧
    [(⟨"p1", "Favorites", [sampleVideo "v1"]⟩ : playlist)].map (fun p => (p.Id, p.Name))
      = favorites.map (fun p => (p.Id, p.Name)) ∧
    (handler favoritesEnv sampleHeader).body
      = "[\x7b\"id\":\"p1\",\"name\":\"Favorites\",\"videos\":[\x7b\"id\":\"v1\",\"title\":\"title of v1\",\"description\":\"about v1\",\"imageurl\":\"/img/v1\",\"url\":\"/watch/v1\"\x7d]\x7d]" :=
  ⟨by decide, by decide,
   (enrichment_frame favoritesEnv sampleHeader (.of favorites)
     (.of [⟨"p1", "Favorites", [sampleVideo "v1"]⟩]) (by decide) (by decide)).2.1,
   by decide⟩

/-- C8 on the scenario of spec §8 (the call for v2 fails): the handler completes; the
root span 0, the redis-get span 1 and the span 2 of the call for v1 are finished once
each; the span 3 of the failed call for v2 is started and tagged but never finished. -/
theorem failed_call_span_not_finished :
    (handler favoritesEnv sampleHeader).result
      = some (.of [⟨"p1", "Favorites", [sampleVideo "v1"]⟩]) ∧
    Event.startSpan 3 "videos-api GET" (some 0) ∈ (handler favoritesEnv sampleHeader).events ∧
    Event.setTagError 3 ∈ (handler favoritesEnv sampleHeader).events ∧
    (handler favoritesEnv sampleHeader).events.count (.finish 3) = 0 ∧
    (handler favoritesEnv sampleHeader).events.count (.finish 0) = 1 ∧
    (handler favoritesEnv sampleHeader).events.count (.finish 1) = 1 ∧
    (handler favoritesEnv sampleHeader).events.count (.finish 2) = 1 := by
  refine ⟨by decide, by decide, by decide, by decide, by decide, by decide, by decide⟩

end PlaylistsApi
